import Mathlib

/-!
Shallow embedding of `src/server.py` (mcp-server-ccxt), a thin MCP dispatch
layer over the ccxt exchange library.

Modelling conventions:
* Python global mutable state (the `exchange_instances` cache) is threaded
  explicitly as a `ServerState`; construction and closing of exchange
  instances are recorded in logs so that resource claims can be stated.
* The ccxt library is an oracle `Network` supplying the results of
  `fetch_ticker` / `fetch_tickers`; the library's network behaviour is
  outside the program.
* Python exceptions are modelled by `Except PyExn`; the dispatcher's
  `except ccxt.BaseError` clause catches exactly `PyExn.ccxtBaseError`.
* Python numbers in tickers are modelled by rationals.  Python's float
  rendering inside f-strings is modelled by `floatStr`; no theorem below
  depends on the digits produced, only on where the rendered value appears.
* Dicts are modelled as insertion-ordered association lists, matching
  Python dict semantics.
-/

namespace CcxtServer

/-- The ccxt connector classes referenced by `SUPPORTED_EXCHANGES`. -/
inductive ExchangeClass
  | binance | coinbase | kraken | kucoin | hyperliquid
  | huobi | bitfinex | bybit | okx | mexc
deriving DecidableEq, Repr

/-- The ccxt attribute name each connector class is accessed by
(`ccxt.binance`, `ccxt.hyperliquid`, ...). -/
def ExchangeClass.className : ExchangeClass → String
  | .binance => "binance"
  | .coinbase => "coinbase"
  | .kraken => "kraken"
  | .kucoin => "kucoin"
  | .hyperliquid => "hyperliquid"
  | .huobi => "huobi"
  | .bitfinex => "bitfinex"
  | .bybit => "bybit"
  | .okx => "okx"
  | .mexc => "mexc"

/-- The static registry `SUPPORTED_EXCHANGES` of `server.py`, in source
order.  Note the entry mapping the key "ftx" to `ccxt.hyperliquid`. -/
def SUPPORTED_EXCHANGES : List (String × ExchangeClass) :=
  [("binance", .binance), ("coinbase", .coinbase), ("kraken", .kraken),
   ("kucoin", .kucoin), ("ftx", .hyperliquid), ("huobi", .huobi),
   ("bitfinex", .bitfinex), ("bybit", .bybit), ("okx", .okx), ("mexc", .mexc)]

/-- Dictionary read, `d[k]` as an `Option`. -/
def dictGet {α : Type} (d : List (String × α)) (k : String) : Option α :=
  (d.find? (fun p => p.1 == k)).map Prod.snd

/-- `SUPPORTED_EXCHANGES[k]` (together with the `in` membership test). -/
def registryLookup (k : String) : Option ExchangeClass :=
  dictGet SUPPORTED_EXCHANGES k

/-- Python `str.lower`, as used on ASCII exchange identifiers. -/
def pyLower (s : String) : String := ⟨s.data.map Char.toLower⟩

/-- Python `str.upper`, as used on ASCII symbols and identifiers. -/
def pyUpper (s : String) : String := ⟨s.data.map Char.toUpper⟩

/-- Python exceptions that the dispatcher's code can produce or observe:
`ValueError` (raised with a message), `IndexError` (list index out of
range), `KeyError` (dict index), and the library's `ccxt.BaseError`
carrying `str(e)`. -/
inductive PyExn
  | valueError (msg : String)
  | indexError
  | keyError
  | ccxtBaseError (msg : String)
deriving DecidableEq, Repr

/-- Value of one numeric field of a ticker dict: the key may be absent,
present but `None`, or a number. -/
inductive FVal
  | missing
  | null
  | num (q : ℚ)
deriving DecidableEq, Repr

/-- A ticker, the dict returned by ccxt `fetch_ticker`, restricted to the
keys `server.py` reads.  `symbol` is a string field; `none` stands for an
absent (or `None`) symbol, which Python would render as "None". -/
structure Ticker where
  symbol : Option String
  last : FVal
  high : FVal
  low : FVal
  baseVolume : FVal
  bid : FVal
  ask : FVal
deriving DecidableEq, Repr

/-- Rendering of a rational carrying a Python number inside an f-string.
Python renders floats by shortest round-trip decimal; this model keeps the
exact value.  No theorem depends on the digits, only on placement. -/
def floatStr (q : ℚ) : String :=
  if q.den = 1 then toString q.num else toString q.num ++ "/" ++ toString q.den

/-- Interpolation `str(v)` of a field value, with `dflt` substituted when
the key is absent (Python `dict.get(key, dflt)`). -/
def FVal.render (dflt : String) : FVal → String
  | .missing => dflt
  | .null => "None"
  | .num q => floatStr q

/-- `ticker['last']` followed by f-string interpolation: raises `KeyError`
when the key is absent, otherwise renders the value. -/
def tickerLastStr (t : Ticker) : Except PyExn String :=
  match t.last with
  | .missing => .error .keyError
  | .null => .ok "None"
  | .num q => .ok (floatStr q)

/-- Python `l[i]` on a list: `IndexError` when out of range. -/
def pyListIndex {α : Type} (l : List α) (i : ℕ) : Except PyExn α :=
  match l.get? i with
  | some a => .ok a
  | none => .error .indexError

/-- Helper for `pySplit`: walk the characters, `acc` holding the current
chunk reversed. -/
def pySplitAux (sep : Char) : List Char → List Char → List (List Char)
  | [], acc => [acc.reverse]
  | c :: cs, acc =>
    if c = sep then acc.reverse :: pySplitAux sep cs []
    else pySplitAux sep cs (c :: acc)

/-- Python `s.split(sep)` for a one-character separator: `"".split(sep)`
is `[""]`, and the number of chunks is one more than the number of
separators. -/
def pySplit (sep : Char) (s : String) : List String :=
  (pySplitAux sep s.data []).map fun l => ⟨l⟩

/-- Python `l[:n]` for an `int` bound: nonnegative `n` keeps the first `n`
elements; negative `n` counts from the end, clamped at zero. -/
def pySliceTo {α : Type} (l : List α) (n : ℤ) : List α :=
  if 0 ≤ n then l.take n.toNat else l.take ((l.length : ℤ) + n).toNat

/-- An exchange instance: its connector class plus an allocation serial
number standing for Python object identity. -/
structure ExchangeInstance where
  cls : ExchangeClass
  serial : ℕ
deriving DecidableEq, Repr

/-- The mutable globals of `server.py` plus bookkeeping logs: the
`exchange_instances` cache (an insertion-ordered dict), a fresh-serial
counter, and logs of every instance constructed and every instance
closed. -/
structure ServerState where
  exchange_instances : List (String × ExchangeInstance)
  nextSerial : ℕ
  constructed : List ExchangeInstance
  closed : List ExchangeInstance
deriving DecidableEq, Repr

/-- The state at interpreter start: empty cache, nothing constructed or
closed. -/
def initState : ServerState :=
  { exchange_instances := [], nextSerial := 0, constructed := [], closed := [] }

/-- `get_exchange` of `server.py`: lower-case the identifier, raise
`ValueError` if it is not a registry key, otherwise construct and cache an
instance on first use and return the cached instance. -/
def get_exchange (exchange_id : String) (st : ServerState) :
    Except PyExn ExchangeInstance × ServerState :=
  let exchange_id := pyLower exchange_id
  match registryLookup exchange_id with
  | none => (.error (.valueError ("Unsupported exchange: " ++ exchange_id)), st)
  | some cls =>
    match dictGet st.exchange_instances exchange_id with
    | some inst => (.ok inst, st)
    | none =>
      let inst : ExchangeInstance := ⟨cls, st.nextSerial⟩
      (.ok inst,
       { st with
          exchange_instances := st.exchange_instances ++ [(exchange_id, inst)],
          nextSerial := st.nextSerial + 1,
          constructed := st.constructed ++ [inst] })

/-- `format_ticker` of `server.py`. -/
def format_ticker (ticker : Ticker) (exchange_id : String) : String :=
  "Exchange: " ++ pyUpper exchange_id ++ "\n" ++
  "Symbol: " ++ (match ticker.symbol with | some s => s | none => "None") ++ "\n" ++
  "Last Price: " ++ ticker.last.render "N/A" ++ "\n" ++
  "24h High: " ++ ticker.high.render "N/A" ++ "\n" ++
  "24h Low: " ++ ticker.low.render "N/A" ++ "\n" ++
  "24h Volume: " ++ ticker.baseVolume.render "N/A" ++ "\n" ++
  "Bid: " ++ ticker.bid.render "N/A" ++ "\n" ++
  "Ask: " ++ ticker.ask.render "N/A" ++ "\n" ++
  "---"

/-- The sort key of `get-top-volumes`:
`float(x.get('baseVolume', 0) or 0)` — an absent key defaults to `0`, a
`None` (or zero) value is replaced by `0` by `or 0`. -/
def volumeKey (t : Ticker) : ℚ :=
  match t.baseVolume with
  | .missing => 0
  | .null => 0
  | .num q => q

/-- Descending-by-volume comparison used by the sort. -/
def volGE (a b : Ticker) : Prop := volumeKey b ≤ volumeKey a

instance : DecidableRel volGE := fun a b =>
  inferInstanceAs (Decidable (volumeKey b ≤ volumeKey a))

instance : IsTotal Ticker volGE :=
  ⟨fun a b => (le_total (volumeKey b) (volumeKey a)).imp id id⟩

instance : IsTrans Ticker volGE :=
  ⟨fun _ _ _ h1 h2 => le_trans h2 h1⟩

/-- Stable insertion into a descending-by-volume sorted list: walk past
strictly larger keys, so an inserted element goes before every element of
equal key already present. -/
def insertDesc (x : Ticker) : List Ticker → List Ticker
  | [] => [x]
  | y :: ys =>
    if volumeKey x < volumeKey y then y :: insertDesc x ys
    else x :: y :: ys

/-- `sorted(tickers.values(), key=..., reverse=True)`.  Python's `sorted`
is stable and `reverse=True` preserves stability; a stable
descending-by-key sort is unique, and this insertion sort computes it. -/
def sortedByVolumeDesc : List Ticker → List Ticker
  | [] => []
  | t :: ts => insertDesc t (sortedByVolumeDesc ts)

/-- `sorted(...)[:limit]` of the `get-top-volumes` branch. -/
def topVolumesSelection (tickers : List Ticker) (limit : ℤ) : List Ticker :=
  pySliceTo (sortedByVolumeDesc tickers) limit

/-- The ccxt library as an oracle: what a fetch on a given connector class
returns.  `fetch_tickers` yields the tickers in dict insertion order,
i.e. `tickers.values()`. -/
structure Network where
  fetch_ticker : ExchangeClass → String → Except PyExn Ticker
  fetch_tickers : ExchangeClass → Except PyExn (List Ticker)

/-- The argument mapping of a tool call, restricted to the keys the
dispatcher reads; `none` means the key is absent. -/
structure Arguments where
  symbol : Option String
  exchange : Option String
  limit : Option ℤ
deriving DecidableEq, Repr

/-- What a call to the dispatcher does for the caller: either it returns a
list of text contents, or a Python exception escapes it. -/
inductive CallOutcome
  | returned (texts : List String)
  | raised (e : PyExn)
deriving DecidableEq, Repr

/-- Does the outcome consist of an escaping `ValueError`? -/
def isRaisedValueError : CallOutcome → Bool
  | .raised (.valueError _) => true
  | _ => false

/-- The `try:` block of `handle_call_tool`, before exception handling and
cleanup; returns the texts or the exception, together with the state. -/
def tryBody (net : Network) (name : String) (arguments : Arguments)
    (st : ServerState) : Except PyExn (List String) × ServerState :=
  if name = "list-exchanges" then
    (.ok ["Supported exchanges:\n\n" ++
          String.intercalate "\n"
            (SUPPORTED_EXCHANGES.map fun p => "- " ++ pyUpper p.1)], st)
  else
    let exchange_id := arguments.exchange.getD "binance"
    match get_exchange exchange_id st with
    | (.error e, st₁) => (.error e, st₁)
    | (.ok exchange, st₁) =>
      if name = "get-price" then
        let symbol := pyUpper (arguments.symbol.getD "")
        match net.fetch_ticker exchange.cls symbol with
        | .error e => (.error e, st₁)
        | .ok ticker =>
          match tickerLastStr ticker with
          | .error e => (.error e, st₁)
          | .ok lastStr =>
            match pyListIndex (pySplit '/' symbol) 1 with
            | .error e => (.error e, st₁)
            | .ok quote =>
              (.ok ["Current price of " ++ symbol ++ " on " ++
                    pyUpper exchange_id ++ ": " ++ lastStr ++ " " ++ quote], st₁)
      else if name = "get-market-summary" then
        let symbol := pyUpper (arguments.symbol.getD "")
        match net.fetch_ticker exchange.cls symbol with
        | .error e => (.error e, st₁)
        | .ok ticker =>
          (.ok ["Market summary for " ++ symbol ++ ":\n\n" ++
                format_ticker ticker exchange_id], st₁)
      else if name = "get-top-volumes" then
        let limit := arguments.limit.getD 5
        match net.fetch_tickers exchange.cls with
        | .error e => (.error e, st₁)
        | .ok tickers =>
          let sorted_tickers := topVolumesSelection tickers limit
          let formatted_results :=
            sorted_tickers.map fun t => format_ticker t exchange_id
          (.ok ["Top " ++ toString limit ++ " pairs by volume on " ++
                pyUpper exchange_id ++ ":\n\n" ++
                String.intercalate "\n" formatted_results], st₁)
      else
        (.error (.valueError ("Unknown tool: " ++ name)), st₁)

/-- The `finally:` block: close every cached instance in order, then clear
the cache. -/
def closeAll (st : ServerState) : ServerState :=
  { st with
      closed := st.closed ++ st.exchange_instances.map Prod.snd,
      exchange_instances := [] }

/-- `handle_call_tool` of `server.py`: run the body; `except
ccxt.BaseError` turns a library error into a textual message; every other
exception escapes; the `finally:` cleanup runs on every path. -/
def handle_call_tool (net : Network) (name : String) (arguments : Arguments)
    (st : ServerState) : CallOutcome × ServerState :=
  let r := tryBody net name arguments st
  let out : CallOutcome :=
    match r.1 with
    | .ok texts => .returned texts
    | .error (.ccxtBaseError m) =>
        .returned ["Error accessing cryptocurrency data: " ++ m]
    | .error e => .raised e
  (out, closeAll r.2)

/-! ### Fixtures used by concrete witnesses -/

/-- A concrete ticker for BTC/USDT with last price 50000. -/
def wTicker : Ticker :=
  ⟨some "BTC/USDT", .num 50000, .missing, .missing, .missing, .missing, .missing⟩

/-- Three concrete tickers with volumes 5, null and 5: a tie plus a null. -/
def wTickers : List Ticker :=
  [⟨some "A/B", .num 1, .missing, .missing, .num 5, .missing, .missing⟩,
   ⟨some "C/D", .num 2, .missing, .missing, .null, .missing, .missing⟩,
   ⟨some "E/F", .num 3, .missing, .missing, .num 5, .missing, .missing⟩]

/-- A concrete network oracle: every single-ticker fetch yields `wTicker`,
every all-tickers fetch yields `wTickers`. -/
def wNet : Network :=
  { fetch_ticker := fun _ _ => .ok wTicker,
    fetch_tickers := fun _ => .ok wTickers }

/-! ### Helper lemmas -/

/-- Appending a fresh binding makes it visible to `dictGet` under its
key. -/
theorem dictGet_append_self {α : Type} (d : List (String × α)) (k : String)
    (i : α) (h : dictGet d k = none) : dictGet (d ++ [(k, i)]) k = some i := by
  have hf : d.find? (fun p => p.1 == k) = none := by
    rcases hf : d.find? (fun p => p.1 == k) with _ | p
    · exact hf
    · rw [dictGet, hf] at h
      simp at h
  rw [dictGet, List.find?_append, hf]
  simp

/-- A key absent from a dict matches no entry. -/
theorem dictGet_none_filter {α : Type} (d : List (String × α)) (k : String)
    (h : dictGet d k = none) : d.filter (fun p => p.1 == k) = [] := by
  have hf : d.find? (fun p => p.1 == k) = none := by
    rcases hf : d.find? (fun p => p.1 == k) with _ | p
    · exact hf
    · rw [dictGet, hf] at h
      simp at h
  rw [List.filter_eq_nil_iff]
  intro p hp
  exact List.find?_eq_none.mp hf p hp

/-- `get_exchange` keeps the cache values aligned with the construction
log and never closes anything. -/
theorem get_exchange_cache_constructed (id : String) (st : ServerState)
    (h : st.exchange_instances.map Prod.snd = st.constructed) :
    ((get_exchange id st).2).exchange_instances.map Prod.snd =
      ((get_exchange id st).2).constructed ∧
    ((get_exchange id st).2).closed = st.closed := by
  rcases hr : registryLookup (pyLower id) with _ | cls
  · simp [get_exchange, hr, h]
  · rcases hd : dictGet st.exchange_instances (pyLower id) with _ | inst
    · simp [get_exchange, hr, hd, h]
    · simp [get_exchange, hr, hd, h]

/-- The state coming out of the `try:` body is either the entry state or
the state after the single `get_exchange` call. -/
theorem tryBody_state_cases (net : Network) (name : String) (args : Arguments)
    (st : ServerState) :
    (tryBody net name args st).2 = st ∨
    (tryBody net name args st).2 = (get_exchange (args.exchange.getD "binance") st).2 := by
  by_cases h1 : name = "list-exchanges"
  · left
    simp [tryBody, h1]
  · rcases hge : get_exchange (args.exchange.getD "binance") st with ⟨res, st₁⟩
    rcases res with e | ex
    · right
      simp [tryBody, h1, hge]
    · by_cases h2 : name = "get-price"
      · rcases hf : net.fetch_ticker ex.cls (pyUpper (args.symbol.getD "")) with e | t
        · right
          simp [tryBody, h1, h2, hge, hf]
        · rcases hl : tickerLastStr t with e | ls
          · right
            simp [tryBody, h1, h2, hge, hf, hl]
          · rcases hs : pyListIndex (pySplit '/' (pyUpper (args.symbol.getD ""))) 1 with e | qt
            · right
              simp [tryBody, h1, h2, hge, hf, hl, hs]
            · right
              simp [tryBody, h1, h2, hge, hf, hl, hs]
      · by_cases h3 : name = "get-market-summary"
        · rcases hf : net.fetch_ticker ex.cls (pyUpper (args.symbol.getD "")) with e | t
          · right
            simp [tryBody, h1, h2, h3, hge, hf]
          · right
            simp [tryBody, h1, h2, h3, hge, hf]
        · by_cases h4 : name = "get-top-volumes"
          · rcases hf : net.fetch_tickers ex.cls with e | ts
            · right
              simp [tryBody, h1, h2, h3, h4, hge, hf]
            · right
              simp [tryBody, h1, h2, h3, h4, hge, hf]
          · right
            simp [tryBody, h1, h2, h3, h4, hge]

/-- `insertDesc` is Mathlib's `orderedInsert` for the descending-by-volume
relation. -/
theorem insertDesc_eq_orderedInsert (x : Ticker) (l : List Ticker) :
    insertDesc x l = List.orderedInsert volGE x l := by
  induction l with
  | nil => rfl
  | cons y ys ih =>
    rw [insertDesc, List.orderedInsert]
    by_cases h : volumeKey x < volumeKey y
    · rw [if_pos h, if_neg (show ¬ volGE x y from not_le.mpr h), ih]
    · rw [if_neg h, if_pos (show volGE x y from not_lt.mp h)]

/-- The volume sort is Mathlib's insertion sort for `volGE`. -/
theorem sortedByVolumeDesc_eq_insertionSort (l : List Ticker) :
    sortedByVolumeDesc l = List.insertionSort volGE l := by
  induction l with
  | nil => rfl
  | cons x xs ih =>
    rw [sortedByVolumeDesc, List.insertionSort, ih, insertDesc_eq_orderedInsert]

/-- The volume sort produces a list sorted descending by volume. -/
theorem sorted_sortedByVolumeDesc (l : List Ticker) :
    List.Sorted volGE (sortedByVolumeDesc l) := by
  rw [sortedByVolumeDesc_eq_insertionSort]
  exact List.sorted_insertionSort volGE l

/-- Inserting an element leaves the elements of any other key untouched
and puts the inserted element in front of the elements of its own key. -/
theorem filter_insertDesc (q : ℚ) (x : Ticker) (l : List Ticker) :
    (insertDesc x l).filter (fun t => decide (volumeKey t = q)) =
      if volumeKey x = q then
        x :: l.filter (fun t => decide (volumeKey t = q))
      else l.filter (fun t => decide (volumeKey t = q)) := by
  induction l with
  | nil =>
    by_cases h : volumeKey x = q <;> simp [insertDesc, h]
  | cons y ys ih =>
    rw [insertDesc]
    by_cases hxy : volumeKey x < volumeKey y
    · rw [if_pos hxy]
      by_cases hx : volumeKey x = q
      · have hy : volumeKey y ≠ q := by
          intro hy
          rw [hx, hy] at hxy
          exact lt_irrefl q hxy
        simp [List.filter_cons, hy, hx, ih]
      · simp [List.filter_cons, hx, ih]
    · rw [if_neg hxy]
      by_cases hx : volumeKey x = q <;> simp [List.filter_cons, hx]

/-- Stability of the volume sort: the elements of any one key value keep
their original relative order. -/
theorem filter_sortedByVolumeDesc (q : ℚ) (l : List Ticker) :
    (sortedByVolumeDesc l).filter (fun t => decide (volumeKey t = q)) =
      l.filter (fun t => decide (volumeKey t = q)) := by
  induction l with
  | nil => rfl
  | cons x xs ih =>
    rw [sortedByVolumeDesc, filter_insertDesc]
    by_cases hx : volumeKey x = q <;> simp [List.filter_cons, hx, ih]

/-- On a nonnegative bound, the Python slice is `List.take`. -/
theorem pySliceTo_of_nonneg {α : Type} (l : List α) (n : ℤ) (h : 0 ≤ n) :
    pySliceTo l n = l.take n.toNat := by
  rw [pySliceTo, if_pos h]

/-- Splitting a separator-free chunk yields one piece. -/
theorem pySplitAux_of_not_mem (sep : Char) (l acc : List Char)
    (h : ¬ sep ∈ l) : pySplitAux sep l acc = [acc.reverse ++ l] := by
  induction l generalizing acc with
  | nil => simp [pySplitAux]
  | cons c cs ih =>
    rw [pySplitAux, if_neg (fun hc : c = sep => h (hc ▸ List.mem_cons_self c cs)),
        ih _ (fun hm => h (List.mem_cons_of_mem c hm))]
    simp

/-- Splitting around the first separator occurrence. -/
theorem pySplitAux_append (sep : Char) (l1 l2 acc : List Char)
    (h : ¬ sep ∈ l1) :
    pySplitAux sep (l1 ++ sep :: l2) acc =
      (acc.reverse ++ l1) :: pySplitAux sep l2 [] := by
  induction l1 generalizing acc with
  | nil => simp [pySplitAux]
  | cons c cs ih =>
    rw [List.cons_append, pySplitAux,
        if_neg (fun hc : c = sep => h (hc ▸ List.mem_cons_self c cs)),
        ih _ (fun hm => h (List.mem_cons_of_mem c hm))]
    simp

/-- `split('/')` on a symbol of the form BASE/QUOTE gives the two
parts. -/
theorem pySplit_base_quote (base quote : String)
    (hb : ¬ '/' ∈ base.data) (hq : ¬ '/' ∈ quote.data) :
    pySplit '/' (base ++ "/" ++ quote) = [base, quote] := by
  have hdata : (base ++ "/" ++ quote).data = base.data ++ '/' :: quote.data := by
    rw [String.data_append, String.data_append]
    simp
  rw [pySplit, hdata, pySplitAux_append _ _ _ _ hb,
      pySplitAux_of_not_mem _ _ _ hq]
  rfl

/-- `str.upper` maps a character to the slash only from the slash
itself. -/
theorem toUpper_eq_slash {c : Char} (h : Char.toUpper c = '/') : c = '/' := by
  simp only [Char.toUpper] at h
  split at h
  · exfalso
    next hc =>
      obtain ⟨h1, h2⟩ := hc
      generalize hg : Char.toNat c = n at h1 h2 h
      interval_cases n <;> exact absurd h (by decide)
  · exact h

/-- Uppercasing a symbol introduces no slash. -/
theorem slash_not_mem_pyUpper {s : String} (h : ¬ '/' ∈ s.data) :
    ¬ '/' ∈ (pyUpper s).data := by
  intro hmem
  rw [pyUpper] at hmem
  simp only [List.mem_map] at hmem
  obtain ⟨c, hc, hcu⟩ := hmem
  exact h (toUpper_eq_slash hcu ▸ hc)

/-! ### Claim theorems -/

/-- C1, counterexample: calling get-price with the unsupported exchange
"dogecoinex" does not return a textual error message — the internally
raised `ValueError` escapes `handle_call_tool`, because the `except`
clause catches only `ccxt.BaseError`. -/
theorem dispatcher_error_return_counterexample :
    (handle_call_tool wNet "get-price"
        { symbol := some "BTC/USDT", exchange := some "dogecoinex", limit := none }
        initState).1 =
      .raised (.valueError "Unsupported exchange: dogecoinex") := rfl

/-- C1, amended: for an unsupported exchange identifier (on any tool other
than list-exchanges), and for an unrecognized tool name with a resolvable
exchange, `handle_call_tool` lets the internally raised `ValueError`
propagate as an exception instead of returning a textual error message. -/
theorem internal_errors_propagate (net : Network) (name : String)
    (args : Arguments) (st : ServerState)
    (h : (registryLookup (pyLower (args.exchange.getD "binance")) = none ∧
            name ≠ "list-exchanges") ∨
         ((registryLookup (pyLower (args.exchange.getD "binance"))).isSome = true ∧
            name ≠ "list-exchanges" ∧ name ≠ "get-price" ∧
            name ≠ "get-market-summary" ∧ name ≠ "get-top-volumes")) :
    isRaisedValueError (handle_call_tool net name args st).1 = true := by
  rcases h with ⟨hreg, hn⟩ | ⟨hreg, hn1, hn2, hn3, hn4⟩
  · simp [handle_call_tool, tryBody, get_exchange, hreg, hn, isRaisedValueError]
  · obtain ⟨cls, hcls⟩ := Option.isSome_iff_exists.mp hreg
    rcases hd : dictGet st.exchange_instances (pyLower (args.exchange.getD "binance")) with _ | inst
    · simp [handle_call_tool, tryBody, get_exchange, hcls, hd,
            hn1, hn2, hn3, hn4, isRaisedValueError]
    · simp [handle_call_tool, tryBody, get_exchange, hcls, hd,
            hn1, hn2, hn3, hn4, isRaisedValueError]

/-- C1, witness for the amended theorem at the unknown tool
"frobnicate". -/
theorem internal_errors_propagate_witness :
    ((registryLookup (pyLower ((Arguments.mk (some "BTC/USDT") (some "binance") none).exchange.getD "binance"))).isSome = true ∧
      "frobnicate" ≠ "list-exchanges" ∧ "frobnicate" ≠ "get-price" ∧
      "frobnicate" ≠ "get-market-summary" ∧ "frobnicate" ≠ "get-top-volumes") ∧
    isRaisedValueError (handle_call_tool wNet "frobnicate"
        (Arguments.mk (some "BTC/USDT") (some "binance") none) initState).1 = true :=
  ⟨⟨rfl, by decide, by decide, by decide, by decide⟩,
   internal_errors_propagate wNet "frobnicate" _ initState
     (Or.inr ⟨rfl, by decide, by decide, by decide, by decide⟩)⟩

/-- C2: starting a call with the (always clean) cache, on every outcome
the `finally:` block leaves the cache empty and has closed exactly the
instances constructed during the call. -/
theorem cleanup_unconditional (net : Network) (name : String)
    (args : Arguments) (st : ServerState)
    (h1 : st.exchange_instances = []) (h2 : st.constructed = [])
    (h3 : st.closed = []) :
    ((handle_call_tool net name args st).2).exchange_instances = [] ∧
    ((handle_call_tool net name args st).2).closed =
      ((handle_call_tool net name args st).2).constructed := by
  have hmap : st.exchange_instances.map Prod.snd = st.constructed := by
    rw [h1, h2]
    rfl
  have hA := get_exchange_cache_constructed (args.exchange.getD "binance") st hmap
  have hB := tryBody_state_cases net name args st
  constructor
  · simp [handle_call_tool, closeAll]
  · rcases hB with hB | hB
    · simp [handle_call_tool, closeAll, hB, h1, h2, h3]
    · simp [handle_call_tool, closeAll, hB, hA.1, hA.2, h3]

/-- C2, witness at a concrete get-price call. -/
theorem cleanup_unconditional_witness :
    (initState.exchange_instances = [] ∧ initState.constructed = [] ∧
      initState.closed = []) ∧
    (((handle_call_tool wNet "get-price" (Arguments.mk (some "BTC/USDT") (some "binance") none) initState).2).exchange_instances = [] ∧
     ((handle_call_tool wNet "get-price" (Arguments.mk (some "BTC/USDT") (some "binance") none) initState).2).closed =
       ((handle_call_tool wNet "get-price" (Arguments.mk (some "BTC/USDT") (some "binance") none) initState).2).constructed) :=
  ⟨⟨rfl, rfl, rfl⟩,
   cleanup_unconditional wNet "get-price" _ initState rfl rfl rfl⟩

/-- C5: resolving a supported exchange identifier behaves identically to
resolving its lowercased form, from any cache state. -/
theorem get_exchange_case_insensitive (s : String) (st : ServerState)
    (h : (registryLookup (pyLower s)).isSome = true) :
    get_exchange s st = get_exchange (pyLower s) st := by
  have hk : pyLower (pyLower s) = pyLower s := by
    rcases hf : SUPPORTED_EXCHANGES.find? (fun p => p.1 == pyLower s) with _ | p
    · rw [registryLookup, dictGet, hf] at h
      simp at h
    · have hmem := List.mem_of_find?_eq_some hf
      have hpk : p.1 = pyLower s := by
        have hps := List.find?_some hf
        simpa using hps
      rw [← hpk]
      simp only [SUPPORTED_EXCHANGES] at hmem
      fin_cases hmem <;> rfl
  simp only [get_exchange]
  rw [hk]

/-- C5, witness at the all-caps identifier "KRAKEN". -/
theorem get_exchange_case_insensitive_witness :
    (registryLookup (pyLower "KRAKEN")).isSome = true ∧
    get_exchange "KRAKEN" initState = get_exchange (pyLower "KRAKEN") initState :=
  ⟨rfl, get_exchange_case_insensitive "KRAKEN" initState rfl⟩

/-- C6: list-exchanges returns exactly the registry keys uppercased as a
bulleted list, for every argument mapping and every network oracle, and
resolves no exchange instance (the construction log and the serial counter
are untouched). -/
theorem list_exchanges_static (net : Network) (args : Arguments)
    (st : ServerState) :
    (handle_call_tool net "list-exchanges" args st).1 =
      .returned ["Supported exchanges:\n\n- BINANCE\n- COINBASE\n- KRAKEN\n- KUCOIN\n- FTX\n- HUOBI\n- BITFINEX\n- BYBIT\n- OKX\n- MEXC"] ∧
    ((handle_call_tool net "list-exchanges" args st).2).constructed = st.constructed ∧
    ((handle_call_tool net "list-exchanges" args st).2).nextSerial = st.nextSerial := by
  refine ⟨rfl, rfl, rfl⟩

/-- C7: resolving an identifier missing from the cache constructs one new
instance and stores it under the lowercased key; resolving it again
returns the cached instance with the state (hence the construction log)
unchanged; the cache then holds exactly one entry for that key. -/
theorem get_exchange_single_instance (s : String) (cls : ExchangeClass)
    (st : ServerState)
    (hcls : registryLookup (pyLower s) = some cls)
    (hmiss : dictGet st.exchange_instances (pyLower s) = none) :
    get_exchange s st =
      (.ok (⟨cls, st.nextSerial⟩ : ExchangeInstance),
        { st with
            exchange_instances :=
              st.exchange_instances ++ [(pyLower s, ⟨cls, st.nextSerial⟩)],
            nextSerial := st.nextSerial + 1,
            constructed := st.constructed ++ [⟨cls, st.nextSerial⟩] }) ∧
    get_exchange s (get_exchange s st).2 =
      (.ok (⟨cls, st.nextSerial⟩ : ExchangeInstance), (get_exchange s st).2) ∧
    (((get_exchange s st).2).exchange_instances.filter
        (fun p => p.1 == pyLower s)).length = 1 := by
  have h1 : get_exchange s st =
      (.ok (⟨cls, st.nextSerial⟩ : ExchangeInstance),
        { st with
            exchange_instances :=
              st.exchange_instances ++ [(pyLower s, ⟨cls, st.nextSerial⟩)],
            nextSerial := st.nextSerial + 1,
            constructed := st.constructed ++ [⟨cls, st.nextSerial⟩] }) := by
    simp [get_exchange, hcls, hmiss]
  refine ⟨h1, ?_, ?_⟩
  · rw [h1]
    simp [get_exchange, hcls, dictGet_append_self _ _ _ hmiss]
  · rw [h1]
    simp only [List.filter_append, dictGet_none_filter _ _ hmiss]
    simp

/-- C7, witness at the mixed-case identifier "Binance" on the clean
state. -/
theorem get_exchange_single_instance_witness :
    (registryLookup (pyLower "Binance") = some ExchangeClass.binance ∧
     dictGet initState.exchange_instances (pyLower "Binance") = none) ∧
    (get_exchange "Binance" initState =
      (.ok (⟨ExchangeClass.binance, initState.nextSerial⟩ : ExchangeInstance),
        { initState with
            exchange_instances :=
              initState.exchange_instances ++
                [(pyLower "Binance", ⟨ExchangeClass.binance, initState.nextSerial⟩)],
            nextSerial := initState.nextSerial + 1,
            constructed :=
              initState.constructed ++ [⟨ExchangeClass.binance, initState.nextSerial⟩] }) ∧
     get_exchange "Binance" (get_exchange "Binance" initState).2 =
       (.ok (⟨ExchangeClass.binance, initState.nextSerial⟩ : ExchangeInstance),
         (get_exchange "Binance" initState).2) ∧
     (((get_exchange "Binance" initState).2).exchange_instances.filter
        (fun p => p.1 == pyLower "Binance")).length = 1) :=
  ⟨⟨rfl, rfl⟩,
   get_exchange_single_instance "Binance" ExchangeClass.binance initState rfl rfl⟩

/-- C8: when the exchange argument is absent, the three data tools behave
exactly as if the exchange argument were "binance". -/
theorem default_exchange_binance (net : Network) (name : String)
    (args : Arguments) (st : ServerState)
    (hex : args.exchange = none)
    (hname : name = "get-price" ∨ name = "get-market-summary" ∨
             name = "get-top-volumes") :
    handle_call_tool net name args st =
      handle_call_tool net name { args with exchange := some "binance" } st := by
  rcases hname with h | h | h <;> subst h <;>
    simp [handle_call_tool, tryBody, hex]

/-- C8, witness at a get-price call with no exchange argument. -/
theorem default_exchange_binance_witness :
    ((Arguments.mk (some "BTC/USDT") none none).exchange = none ∧
     ("get-price" = "get-price" ∨ "get-price" = "get-market-summary" ∨
      "get-price" = "get-top-volumes")) ∧
    handle_call_tool wNet "get-price" (Arguments.mk (some "BTC/USDT") none none) initState =
      handle_call_tool wNet "get-price"
        { Arguments.mk (some "BTC/USDT") none none with exchange := some "binance" }
        initState :=
  ⟨⟨rfl, Or.inl rfl⟩,
   default_exchange_binance wNet "get-price" _ initState rfl (Or.inl rfl)⟩

/-- C9: the registry maps the key "ftx" to the hyperliquid connector
class, and every other entry maps its key to the connector of the same
name, so the advertised identifier and the connector disagree exactly for
the "ftx" entry. -/
theorem ftx_maps_to_hyperliquid :
    registryLookup "ftx" = some ExchangeClass.hyperliquid ∧
    ExchangeClass.className ExchangeClass.hyperliquid ≠ "ftx" ∧
    (SUPPORTED_EXCHANGES.all fun p =>
        decide (p.1 = "ftx") || decide (ExchangeClass.className p.2 = p.1)) = true :=
  ⟨rfl, by decide, rfl⟩

/-- C3: on a successful all-tickers fetch, get-top-volumes returns the
text built from the selection `sorted(...)[:limit]` with the limit
defaulting to 5, and for a nonnegative limit the selection has at most
`limit` entries, is sorted descending by volume (missing or null volume
counting as 0), and the underlying sort is stable: the tickers of any one
volume value keep their fetch order. -/
theorem top_volumes_spec (net : Network) (args : Arguments) (st : ServerState)
    (cls : ExchangeClass) (tickers : List Ticker)
    (hclean : st.exchange_instances = [])
    (hcls : registryLookup (pyLower (args.exchange.getD "binance")) = some cls)
    (hfetch : net.fetch_tickers cls = .ok tickers)
    (hN : 0 ≤ args.limit.getD 5) :
    (handle_call_tool net "get-top-volumes" args st).1 =
      .returned ["Top " ++ toString (args.limit.getD 5) ++ " pairs by volume on " ++
                 pyUpper (args.exchange.getD "binance") ++ ":\n\n" ++
                 String.intercalate "\n"
                   ((topVolumesSelection tickers (args.limit.getD 5)).map
                     fun t => format_ticker t (args.exchange.getD "binance"))] ∧
    (topVolumesSelection tickers (args.limit.getD 5)).length ≤
      (args.limit.getD 5).toNat ∧
    List.Sorted volGE (topVolumesSelection tickers (args.limit.getD 5)) ∧
    ((tickers.map volumeKey).all fun q =>
        decide ((sortedByVolumeDesc tickers).filter (fun t => decide (volumeKey t = q)) =
                tickers.filter (fun t => decide (volumeKey t = q)))) = true := by
  refine ⟨?_, ?_, ?_, ?_⟩
  · simp [handle_call_tool, tryBody, get_exchange, hcls, hclean, dictGet, hfetch]
  · rw [topVolumesSelection, pySliceTo_of_nonneg _ _ hN]
    exact List.length_take_le _ _
  · rw [topVolumesSelection, pySliceTo_of_nonneg _ _ hN]
    exact List.Pairwise.sublist (List.take_sublist _ _)
      (sorted_sortedByVolumeDesc tickers)
  · simp only [List.all_eq_true]
    intro q hq
    exact decide_eq_true (filter_sortedByVolumeDesc q tickers)

/-- C3, witness at three concrete tickers (a volume tie plus a null
volume) with an absent limit, exercising the default of 5. -/
theorem top_volumes_spec_witness :
    (initState.exchange_instances = [] ∧
     registryLookup (pyLower ((Arguments.mk none none none).exchange.getD "binance")) =
       some ExchangeClass.binance ∧
     wNet.fetch_tickers ExchangeClass.binance = .ok wTickers ∧
     0 ≤ (Arguments.mk none none none).limit.getD 5) ∧
    ((handle_call_tool wNet "get-top-volumes" (Arguments.mk none none none) initState).1 =
      .returned ["Top " ++ toString ((Arguments.mk none none none).limit.getD 5) ++
                 " pairs by volume on " ++
                 pyUpper ((Arguments.mk none none none).exchange.getD "binance") ++ ":\n\n" ++
                 String.intercalate "\n"
                   ((topVolumesSelection wTickers ((Arguments.mk none none none).limit.getD 5)).map
                     fun t => format_ticker t ((Arguments.mk none none none).exchange.getD "binance"))] ∧
     (topVolumesSelection wTickers ((Arguments.mk none none none).limit.getD 5)).length ≤
       ((Arguments.mk none none none).limit.getD 5).toNat ∧
     List.Sorted volGE (topVolumesSelection wTickers ((Arguments.mk none none none).limit.getD 5)) ∧
     ((wTickers.map volumeKey).all fun q =>
         decide ((sortedByVolumeDesc wTickers).filter (fun t => decide (volumeKey t = q)) =
                 wTickers.filter (fun t => decide (volumeKey t = q)))) = true) :=
  ⟨⟨rfl, rfl, rfl, by decide⟩,
   top_volumes_spec wNet (Arguments.mk none none none) initState
     ExchangeClass.binance wTickers rfl rfl rfl (by decide)⟩

/-- C4: on a successful ticker fetch for a symbol whose uppercased form is
BASE/QUOTE, get-price returns exactly the single text "Current price of
SYMBOL on EXCHANGE: last QUOTE", with the exchange identifier
uppercased and `last` the rendering of the ticker's last price. -/
theorem get_price_text_shape (net : Network) (args : Arguments)
    (st : ServerState) (cls : ExchangeClass) (t : Ticker)
    (base quote lastStr : String)
    (hclean : st.exchange_instances = [])
    (hcls : registryLookup (pyLower (args.exchange.getD "binance")) = some cls)
    (hsym : pyUpper (args.symbol.getD "") = base ++ "/" ++ quote)
    (hb : ¬ '/' ∈ base.data) (hq : ¬ '/' ∈ quote.data)
    (hfetch : net.fetch_ticker cls (pyUpper (args.symbol.getD "")) = .ok t)
    (hlast : tickerLastStr t = .ok lastStr) :
    (handle_call_tool net "get-price" args st).1 =
      .returned ["Current price of " ++ pyUpper (args.symbol.getD "") ++ " on " ++
                 pyUpper (args.exchange.getD "binance") ++ ": " ++ lastStr ++ " " ++ quote] := by
  have hsplit : pyListIndex (pySplit '/' (pyUpper (args.symbol.getD ""))) 1 = .ok quote := by
    rw [hsym, pySplit_base_quote base quote hb hq]
    rfl
  simp [handle_call_tool, tryBody, get_exchange, hcls, hclean, dictGet,
        hfetch, hlast, hsplit]

/-- C4, witness at get-price(symbol="BTC/USDT", exchange="binance") with
last price 50000. -/
theorem get_price_text_shape_witness :
    (initState.exchange_instances = [] ∧
     registryLookup (pyLower ((Arguments.mk (some "BTC/USDT") (some "binance") none).exchange.getD "binance")) =
       some ExchangeClass.binance ∧
     pyUpper ((Arguments.mk (some "BTC/USDT") (some "binance") none).symbol.getD "") =
       "BTC" ++ "/" ++ "USDT" ∧
     ¬ '/' ∈ ("BTC" : String).data ∧ ¬ '/' ∈ ("USDT" : String).data ∧
     wNet.fetch_ticker ExchangeClass.binance
       (pyUpper ((Arguments.mk (some "BTC/USDT") (some "binance") none).symbol.getD "")) = .ok wTicker ∧
     tickerLastStr wTicker = .ok "50000") ∧
    (handle_call_tool wNet "get-price"
        (Arguments.mk (some "BTC/USDT") (some "binance") none) initState).1 =
      .returned ["Current price of " ++
                 pyUpper ((Arguments.mk (some "BTC/USDT") (some "binance") none).symbol.getD "") ++
                 " on " ++
                 pyUpper ((Arguments.mk (some "BTC/USDT") (some "binance") none).exchange.getD "binance") ++
                 ": " ++ "50000" ++ " " ++ "USDT"] :=
  ⟨⟨rfl, rfl, rfl, by decide, by decide, rfl, rfl⟩,
   get_price_text_shape wNet (Arguments.mk (some "BTC/USDT") (some "binance") none)
     initState ExchangeClass.binance wTicker "BTC" "USDT" "50000"
     rfl rfl rfl (by decide) (by decide) rfl rfl⟩

/-- C10: when the symbol argument contains no slash (an absent symbol
defaulting to the empty string), a get-price call whose fetch succeeds
(with the 'last' key present) ends in an escaping `IndexError` from
`symbol.split('/')[1]` — not in a textual error message. -/
theorem get_price_no_slash_raises (net : Network) (args : Arguments)
    (st : ServerState) (cls : ExchangeClass) (t : Ticker)
    (hclean : st.exchange_instances = [])
    (hcls : registryLookup (pyLower (args.exchange.getD "binance")) = some cls)
    (hnos : ¬ '/' ∈ (args.symbol.getD "").data)
    (hfetch : net.fetch_ticker cls (pyUpper (args.symbol.getD "")) = .ok t)
    (hlast : t.last ≠ FVal.missing) :
    (handle_call_tool net "get-price" args st).1 = .raised PyExn.indexError := by
  have hnos₂ := slash_not_mem_pyUpper hnos
  have hsplit : pyListIndex (pySplit '/' (pyUpper (args.symbol.getD ""))) 1 =
      .error .indexError := by
    rw [pySplit, pySplitAux_of_not_mem _ _ _ hnos₂]
    rfl
  have hls : ∃ ls, tickerLastStr t = .ok ls := by
    cases hl : t.last with
    | missing => exact absurd hl hlast
    | null => exact ⟨"None", by simp [tickerLastStr, hl]⟩
    | num q => exact ⟨floatStr q, by simp [tickerLastStr, hl]⟩
  obtain ⟨ls, hls⟩ := hls
  simp [handle_call_tool, tryBody, get_exchange, hcls, hclean, dictGet,
        hfetch, hls, hsplit]

/-- C10, witness at an absent symbol (defaulting to the empty string)
fetched against binance. -/
theorem get_price_no_slash_raises_witness :
    (initState.exchange_instances = [] ∧
     registryLookup (pyLower ((Arguments.mk none (some "binance") none).exchange.getD "binance")) =
       some ExchangeClass.binance ∧
     ¬ '/' ∈ (((Arguments.mk none (some "binance") none) : Arguments).symbol.getD "").data ∧
     wNet.fetch_ticker ExchangeClass.binance
       (pyUpper (((Arguments.mk none (some "binance") none) : Arguments).symbol.getD "")) = .ok wTicker ∧
     wTicker.last ≠ FVal.missing) ∧
    (handle_call_tool wNet "get-price" (Arguments.mk none (some "binance") none) initState).1 =
      .raised PyExn.indexError :=
  ⟨⟨rfl, rfl, by decide, rfl, by decide⟩,
   get_price_no_slash_raises wNet (Arguments.mk none (some "binance") none)
     initState ExchangeClass.binance wTicker rfl rfl (by decide) rfl (by decide)⟩

end CcxtServer
